import Mathlib

/-!
Verification development for the yarn-inventory tracker.

The relational store (Prisma/PostgreSQL, `src/prisma/schema.prisma`) is modelled as
explicit lists of rows; the HTTP route handlers are modelled as pure functions from a
database state (plus the authenticated user id and the request body) to a response
value paired with the database state after the call.  Every definition follows the
TypeScript source named in its doc comment; sequential `await`ed Prisma calls become
sequential state transformations, a thrown Prisma error (caught by the handler's
`catch`, which answers HTTP 500) becomes an `Except.error` carrying the state at the
moment of the throw, and a single Prisma call with nested writes (which Prisma runs
atomically) either applies wholly or leaves the state unchanged.
-/

/-- The `DyeStatus` enum of `src/prisma/schema.prisma`. -/
inductive DyeStatus where
  | NOT_TO_BE_DYED
  | TO_BE_DYED
  | HAS_BEEN_DYED
deriving DecidableEq

/-- A row of the `yarns` table (`model Yarn` in `src/prisma/schema.prisma`);
timestamps are not modelled. -/
structure YarnRow where
  id : String
  userId : String
  brand : String
  productLine : String
  materials : String
  yardsPerOz : String
  weight : Int
  totalWeight : Rat
  totalYards : Rat
  currColor : Option String
  nextColor : Option String
  prevColor : Option String
  dyeStatus : DyeStatus
deriving DecidableEq

/-- A row of the `projects` table (`model Project`). -/
structure ProjectRow where
  id : String
  userId : String
  name : String
  description : Option String
  status : String
deriving DecidableEq

/-- A row of the `yarn_tags` table (`model YarnTag`); row ids are modelled as `Nat`
drawn from the database's id counter. -/
structure TagRow where
  id : Nat
  name : String
  yarnId : String
deriving DecidableEq

/-- A row of the `yarn_photos` table (`model YarnPhoto`). -/
structure PhotoRow where
  id : Nat
  url : String
  yarnId : String
deriving DecidableEq

/-- A row of the `yarn_organization_types` table (`model YarnOrganizationType`). -/
structure OrgTypeRow where
  id : String
  name : String
  isSystem : Bool
  userId : Option String
deriving DecidableEq

/-- A row of the `yarn_organizations` table (`model YarnOrganization`). -/
structure OrgRow where
  id : Nat
  typeId : String
  quantity : Int
  yarnId : String
deriving DecidableEq

/-- The relational store.  `links` is the implicit many-to-many join table
`_ProjectToYarn` of the `projects ↔ yarns` relation, as `(projectId, yarnId)` pairs;
`nextId` generates the ids of newly created dependent rows. -/
structure DB where
  yarns : List YarnRow
  projects : List ProjectRow
  tags : List TagRow
  photos : List PhotoRow
  orgs : List OrgRow
  orgTypes : List OrgTypeRow
  links : List (String × String)
  nextId : Nat
deriving DecidableEq

/-- `prisma.yarn.findUnique({where: {id, userId}})`, the ownership-scoped lookup that
opens GET/PATCH/DELETE in `src/app/api/yarns/[id]/route.ts`. -/
def findYarn (db : DB) (uid yid : String) : Option YarnRow :=
  db.yarns.find? (fun y => y.id == yid && y.userId == uid)

/-- `prisma.project.findUnique({where: {id, userId}})` used by the project handlers
in `src/unnamed/part_007`. -/
def findProject (db : DB) (uid pid : String) : Option ProjectRow :=
  db.projects.find? (fun p => p.id == pid && p.userId == uid)

/-- The `organization` entries of a yarn-update request body: `{typeId, quantity}`
objects. -/
structure OrgInput where
  typeId : String
  quantity : Int
deriving DecidableEq

/-- The JSON `tags` field of a PATCH body, distinguishing an absent field, an
explicit `null`, and an array: `tags !== undefined` is true for `null`, and
`null.length` throws. -/
inductive TagsField where
  | absent
  | nullv
  | arr (names : List String)
deriving DecidableEq

/-- The body of `PATCH /api/yarns/[id]` as destructured by the handler:
`const \x7b organization, tags, projectIds, ...yarnData \x7d = requestData`.  Scalar
fields are optional (absent fields are not written); the three color columns can also
be set to SQL `null`, hence `Option (Option _)`. -/
structure PatchBody where
  brand : Option String := none
  productLine : Option String := none
  materials : Option String := none
  yardsPerOz : Option String := none
  weight : Option Int := none
  totalWeight : Option Rat := none
  totalYards : Option Rat := none
  currColor : Option (Option String) := none
  nextColor : Option (Option String) := none
  prevColor : Option (Option String) := none
  dyeStatus : Option DyeStatus := none
  organization : Option (List OrgInput) := none
  tags : TagsField := .absent
  projectIds : Option (List String) := none

/-- Applies the scalar part of a PATCH body to one yarn row (the first
`prisma.yarn.update({where: {id}, data: yarnData})` of the handler). -/
def updScalar (b : PatchBody) (y : YarnRow) : YarnRow :=
  { y with
    brand := b.brand.getD y.brand
    productLine := b.productLine.getD y.productLine
    materials := b.materials.getD y.materials
    yardsPerOz := b.yardsPerOz.getD y.yardsPerOz
    weight := b.weight.getD y.weight
    totalWeight := b.totalWeight.getD y.totalWeight
    totalYards := b.totalYards.getD y.totalYards
    currColor := b.currColor.getD y.currColor
    nextColor := b.nextColor.getD y.nextColor
    prevColor := b.prevColor.getD y.prevColor
    dyeStatus := b.dyeStatus.getD y.dyeStatus }

/-- `prisma.yarn.update({where: {id}, data: yarnData})` — the scalar update that the
PATCH handler runs first, before any of the relation replacements. -/
def applyScalar (db : DB) (yid : String) (b : PatchBody) : DB :=
  { db with yarns := db.yarns.map (fun y => if y.id = yid then updScalar b y else y) }

/-- Whether a `YarnOrganizationType` row with this id exists (the foreign-key target
of `YarnOrganization.typeId`). -/
def orgTypeExists (db : DB) (t : String) : Bool :=
  db.orgTypes.any (fun ot => ot.id == t)

/-- Whether a `Project` row with this id exists — the only thing Prisma's
`connect: \x7b id \x7d` checks; there is no `userId` filter in the handler's
`projects.connect`. -/
def projectExists (db : DB) (p : String) : Bool :=
  db.projects.any (fun pr => pr.id == p)

/-- Creates one `yarn_organizations` row per supplied entry, drawing fresh row ids
from the counter (the `prisma.$transaction(organization.map(... create ...))`). -/
def insertOrgs (db : DB) (yid : String) (l : List OrgInput) : DB :=
  l.foldl
    (fun d o =>
      { d with
        orgs := d.orgs ++ [⟨d.nextId, o.typeId, o.quantity, yid⟩]
        nextId := d.nextId + 1 })
    db

/-- Creates one `yarn_tags` row per supplied name (the nested
`tags: \x7b create: tags.map(tag => (\x7b name: tag \x7d)) \x7d` update). -/
def insertTags (db : DB) (yid : String) (ts : List String) : DB :=
  ts.foldl
    (fun d n =>
      { d with
        tags := d.tags ++ [⟨d.nextId, n, yid⟩]
        nextId := d.nextId + 1 })
    db

/-- The `organization` block of the PATCH handler
(`src/app/api/yarns/[id]/route.ts`, lines 104-125): on `if (organization)` delete
all of the yarn's entries (`yarnOrganization.deleteMany`, its own awaited call), then
create the new entries inside one `prisma.$transaction`.  A `create` whose `typeId`
has no `YarnOrganizationType` row violates the foreign key: the transaction of
creates rolls back, but the already-committed `deleteMany` does not — the handler's
`catch` then answers 500.  `Except.error` carries the state at the throw. -/
def orgStep (db : DB) (yid : String) (o : Option (List OrgInput)) : Except DB DB :=
  match o with
  | none => .ok db
  | some l =>
    let d1 := { db with orgs := db.orgs.filter (fun r => r.yarnId != yid) }
    if l.isEmpty then .ok d1
    else if l.all (fun oi => orgTypeExists db oi.typeId) then .ok (insertOrgs d1 yid l)
    else .error d1

/-- The `tags` block of the PATCH handler (lines 127-152): guarded by
`tags !== undefined`, so an explicit `null` enters the block; the nested
`deleteMany: \x7b\x7d` removes all of the yarn's tag rows, and then `tags.length`
throws on `null`, leaving the deletion committed. -/
def tagsStep (db : DB) (yid : String) (t : TagsField) : Except DB DB :=
  match t with
  | .absent => .ok db
  | .nullv => .error { db with tags := db.tags.filter (fun r => r.yarnId != yid) }
  | .arr ts =>
    let d1 := { db with tags := db.tags.filter (fun r => r.yarnId != yid) }
    if ts.isEmpty then .ok d1 else .ok (insertTags d1 yid ts)

/-- The `projectIds` block of the PATCH handler (lines 154-166): one
`prisma.yarn.update` whose nested write does `set: []` then
`connect: projectIds.map(projectId => (\x7b id: projectId \x7d))`.  Prisma runs the
nested writes of a single update atomically, so if any `connect` target id does not
exist the whole update throws and the links are unchanged; `connect` only requires
the project id to exist — it does not check the project's owner.  Connecting an
already-connected project is a no-op. -/
def projStep (db : DB) (yid : String) (o : Option (List String)) : Except DB DB :=
  match o with
  | none => .ok db
  | some pids =>
    if pids.all (projectExists db) then
      .ok { db with
        links :=
          pids.foldl
            (fun ls p => if ls.contains (p, yid) then ls else ls ++ [(p, yid)])
            (db.links.filter (fun l => l.2 != yid)) }
    else .error db

/-- The response taxonomy of the PATCH handlers: 200 with the rehydrated entity,
404 `"not found"`, or the catch-all 500. -/
inductive PatchResult where
  | ok
  | notFound
  | serverError
deriving DecidableEq

/-- `PATCH /api/yarns/[id]` (`src/app/api/yarns/[id]/route.ts`, lines 64-205):
ownership-scoped lookup (404 on miss), then the scalar update, the `organization`
block, the `tags` block and the `projectIds` block as separate sequential awaited
calls; the first throw is caught at the handler boundary and answered with 500,
leaving every change the earlier calls already committed in place. -/
def patchYarn (db : DB) (uid yid : String) (b : PatchBody) : PatchResult × DB :=
  match findYarn db uid yid with
  | none => (.notFound, db)
  | some _ =>
    let db1 := applyScalar db yid b
    match orgStep db1 yid b.organization with
    | .error d => (.serverError, d)
    | .ok db2 =>
      match tagsStep db2 yid b.tags with
      | .error d => (.serverError, d)
      | .ok db3 =>
        match projStep db3 yid b.projectIds with
        | .error d => (.serverError, d)
        | .ok db4 => (.ok, db4)

/-- A yarn with its relations loaded, as the GET/PATCH handlers include them. -/
structure YarnView where
  yarn : YarnRow
  photos : List PhotoRow
  tags : List TagRow
  projects : List ProjectRow
  organization : List OrgRow
deriving DecidableEq

/-- The `include: \x7b photos, tags, projects, organization \x7d` rehydration. -/
def rehydrate (db : DB) (y : YarnRow) : YarnView :=
  { yarn := y
    photos := db.photos.filter (fun p => p.yarnId == y.id)
    tags := db.tags.filter (fun t => t.yarnId == y.id)
    projects := db.projects.filter (fun pr => db.links.contains (pr.id, y.id))
    organization := db.orgs.filter (fun o => o.yarnId == y.id) }

/-- `GET /api/yarns/[id]` (lines 6-62): ownership-scoped `findUnique` with
relations; `none` is the 404 `"Yarn not found"` response, produced both when no row
with the id exists and when the row belongs to a different user. -/
def getYarn (db : DB) (uid yid : String) : Option YarnView :=
  (findYarn db uid yid).map (rehydrate db)

/-- Responses of the DELETE handlers. -/
inductive DeleteResult where
  | ok
  | notFound
deriving DecidableEq

/-- `DELETE /api/yarns/[id]` (lines 207-253): ownership-scoped lookup (404 on miss),
explicit `yarnOrganization.deleteMany`, then `prisma.yarn.delete`; the schema's
`onDelete: Cascade` on `YarnPhoto`, `YarnTag` and `YarnOrganization` and the cascade
of the implicit `_ProjectToYarn` join table remove the dependent rows and the join
rows, while `projects` rows themselves are untouched. -/
def deleteYarn (db : DB) (uid yid : String) : DeleteResult × DB :=
  match findYarn db uid yid with
  | none => (.notFound, db)
  | some _ =>
    (.ok,
      { db with
        yarns := db.yarns.filter (fun y => y.id != yid)
        photos := db.photos.filter (fun p => p.yarnId != yid)
        tags := db.tags.filter (fun t => t.yarnId != yid)
        orgs := db.orgs.filter (fun o => o.yarnId != yid)
        links := db.links.filter (fun l => l.2 != yid) })

/-- The body of `PATCH /api/projects/[id]` as destructured by the handler in
`src/unnamed/part_007`: `const \x7b yarnIds, ...projectData \x7d = requestData`. -/
structure ProjectPatchBody where
  name : Option String := none
  description : Option (Option String) := none
  status : Option String := none
  yarnIds : Option (List String) := none

/-- Whether a `Yarn` row with this id exists (what `yarns.connect` checks). -/
def yarnExists (db : DB) (yid : String) : Bool :=
  db.yarns.any (fun y => y.id == yid)

/-- `GET /api/projects/[id]` (`src/unnamed/part_007`, lines 6-40): ownership-scoped
`findUnique` including `yarns`; `none` is the 404 `"Project not found"` response for
both a missing id and a foreign-owned row. -/
def getProject (db : DB) (uid pid : String) : Option (ProjectRow × List YarnRow) :=
  (findProject db uid pid).map
    (fun p => (p, db.yarns.filter (fun y => db.links.contains (p.id, y.id))))

/-- `PATCH /api/projects/[id]` (`src/unnamed/part_007`, lines 42-109): ownership
check, scalar update, then — `if (yarnIds)` — one nested `set: []` plus `connect`
update of the project's yarn set, atomic as a single Prisma call. -/
def patchProject (db : DB) (uid pid : String) (b : ProjectPatchBody) :
    PatchResult × DB :=
  match findProject db uid pid with
  | none => (.notFound, db)
  | some _ =>
    let db1 :=
      { db with
        projects := db.projects.map (fun p =>
          if p.id = pid then
            { p with
              name := b.name.getD p.name
              description := b.description.getD p.description
              status := b.status.getD p.status }
          else p) }
    match b.yarnIds with
    | none => (.ok, db1)
    | some ys =>
      if ys.all (yarnExists db1) then
        (.ok,
          { db1 with
            links :=
              ys.foldl
                (fun ls y => if ls.contains (pid, y) then ls else ls ++ [(pid, y)])
                (db1.links.filter (fun l => l.1 != pid)) })
      else (.serverError, db1)

/-- `DELETE /api/projects/[id]` (`src/unnamed/part_007`, lines 111-150): ownership
check, then `prisma.project.delete`; the join rows of the implicit many-to-many
table cascade away, yarns are untouched. -/
def deleteProject (db : DB) (uid pid : String) : DeleteResult × DB :=
  match findProject db uid pid with
  | none => (.notFound, db)
  | some _ =>
    (.ok,
      { db with
        projects := db.projects.filter (fun p => p.id != pid)
        links := db.links.filter (fun l => l.1 != pid) })

/-- Responses of `POST /api/projects/[id]/yarns`. -/
inductive AddResult where
  | ok
  | notFound
  | badRequest
  | serverError
deriving DecidableEq

/-- The project-id extraction of the `/api/projects/[id]/yarns` handlers
(`src/unnamed/part_006`, line 129):
`pathname.match(/\/api\/projects\/(.+?)\/yarns/)?.groups \x7c\x7c \x7b\x7d`.  The
regex has a positional capture group but no NAMED capture group, and per
ECMA-262 `RegExpMatchArray.groups` is populated only when the pattern contains
named groups — so the expression is `undefined` for every pathname, and the
destructured `id` is always `undefined`. -/
def extractProjectIdGroups : Option String := none

/-- The body of `POST /api/projects/[id]/yarns` after the id guard
(`src/unnamed/part_006`, lines 135-164), as it would run on an extracted project
id: ownership-scoped project lookup (404 on miss), then
`prisma.yarn.update(\x7b where: \x7b id: yarnId \x7d, data: \x7b projects:
\x7b connect: ... \x7d, totalWeight: 0, totalYards: 0 \x7d \x7d)` — connecting the
yarn to the project while also writing `totalWeight: 0` and `totalYards: 0` into
the yarn row; the update throws (caught as 500) only if no yarn row with `yarnId`
exists. -/
def addYarnToProjectBody (db : DB) (uid pid yid : String) : AddResult × DB :=
  match findProject db uid pid with
  | none => (.notFound, db)
  | some p =>
    if yarnExists db yid then
      (.ok,
        { db with
          yarns := db.yarns.map (fun y =>
            if y.id = yid then { y with totalWeight := 0, totalYards := 0 } else y)
          links :=
            if db.links.contains (p.id, yid) then db.links
            else db.links ++ [(p.id, yid)] })
    else (.serverError, db)

/-- `POST /api/projects/[id]/yarns` (`src/unnamed/part_006`, lines 121-172): the
handler destructures `id` from `extractProjectIdGroups`, which is always
`undefined`, so the `if (!id)` guard answers 400 `"Invalid project ID"` on every
request and `addYarnToProjectBody` — including its totals-zeroing update — is
unreachable. -/
def addYarnToProject (db : DB) (uid yid : String) : AddResult × DB :=
  match extractProjectIdGroups with
  | none => (.badRequest, db)
  | some pid => addYarnToProjectBody db uid pid yid

/-- The names of a yarn's stored tag rows, in row order — the observable tag
multiset of the claims about tag replacement. -/
def tagNames (db : DB) (yid : String) : List String :=
  (db.tags.filter (fun t => t.yarnId == yid)).map (fun t => t.name)

/-- The §3 invariant `totalWeight, totalYards > 0` over every stored yarn row. -/
def dbInvariant (db : DB) : Prop :=
  ∀ y ∈ db.yarns, 0 < y.totalWeight ∧ 0 < y.totalYards

instance (db : DB) : Decidable (dbInvariant db) := by
  unfold dbInvariant; infer_instance

/-- The color-delimiter `"-->"` of the dye convention, as characters. -/
def arrow : List Char := ['-', '-', '>']

/-- JavaScript `value.split("-->")` on the character list: scanning left to right, a
match of the full delimiter ends the current piece and the scan resumes after it.
Structural recursion mirrors `String.prototype.split` for this fixed non-empty
separator. -/
def splitArrow : List Char → List (List Char)
  | [] => [[]]
  | '-' :: '-' :: '>' :: rest => [] :: splitArrow rest
  | c :: cs =>
    match splitArrow cs with
    | [] => [[c]]
    | h :: t => (c :: h) :: t

/-- JavaScript `value.includes("-->")`: some position of the list starts with the
delimiter. -/
def includesArrow (l : List Char) : Bool :=
  (List.range l.length).any (fun i => arrow.isPrefixOf (l.drop i))

/-- JavaScript `part.trim()`: strip leading and trailing whitespace characters. -/
def trimChars (l : List Char) : List Char :=
  ((l.dropWhile Char.isWhitespace).reverse.dropWhile Char.isWhitespace).reverse

/-- String-level wrapper of `trimChars`. -/
def jsTrim (s : String) : String :=
  String.mk (trimChars s.toList)

/-- The slice of form state that `handleColorChange` touches: the `currColor` and
`nextColor` inputs and the `dyeStatus` selector, as `react-hook-form` holds them. -/
structure FormState where
  currColor : Option String
  nextColor : Option String
  dyeStatus : DyeStatus
deriving DecidableEq

/-- `handleColorChange` of the yarn forms
(`src/app/dashboard/yarns/[id]/edit/page.tsx`, lines 156-169, identical in
`src/unnamed/part_005`, lines 318-331): if the typed value includes `"-->"`, split
on the delimiter, trim every part, and set `currColor` to part 0, `nextColor` to
part 1 and `dyeStatus` to `TO_BE_DYED`; otherwise set only `currColor`, to the value
verbatim. -/
def handleColorChange (value : String) (s : FormState) : FormState :=
  if includesArrow value.toList then
    let parts := (splitArrow value.toList).map (fun p => jsTrim (String.mk p))
    { s with
      currColor := some (parts.getD 0 "")
      nextColor := some (parts.getD 1 "")
      dyeStatus := .TO_BE_DYED }
  else
    { s with currColor := some value }

/-- Joins pieces back with the `"-->"` delimiter (inverse of `splitArrow` off the
first piece). -/
def joinArrow : List (List Char) → List Char
  | [] => []
  | [x] => x
  | x :: rest => x ++ arrow ++ joinArrow rest

/-- Modelled from the spec's words, for comparison with the source behavior: split
the input at the FIRST occurrence of the delimiter only, returning the text to its
left and the whole text to its right. -/
def specFirstSplit (v : String) : String × String :=
  match splitArrow v.toList with
  | [] => (v, "")
  | [x] => (String.mk x, "")
  | x :: rest => (String.mk x, String.mk (joinArrow rest))

/-- No occurrence of the delimiter starts at a position below `n`. -/
def noArrowBefore (l : List Char) (n : Nat) : Prop :=
  ∀ i < n, ¬ arrow.isPrefixOf (l.drop i)

instance (l : List Char) (n : Nat) : Decidable (noArrowBefore l n) := by
  unfold noArrowBefore; infer_instance

/-- A yarn-create payload as validated by `yarnSchema`
(`src/unnamed/part_009`, lines 11-28) and by the new-yarn form's identical
`formSchema` (`src/unnamed/part_005`, lines 267-286). -/
structure YarnPayload where
  brand : String
  productLine : String
  prevColor : Option String
  currColor : Option String
  nextColor : Option String
  dyeStatus : DyeStatus
  materials : String
  weight : Int
  yardsPerOz : String
  totalWeight : Rat
  totalYards : Rat
  organization : List OrgInput
  tags : Option (List String)
deriving DecidableEq

/-- Consumes `\d+(\.\d+)?` from the front of the character list, returning the
rest on success (the number token of the `yardsPerOz` pattern). -/
def numTok (l : List Char) : Option (List Char) :=
  let ds := l.takeWhile Char.isDigit
  if ds.isEmpty then none
  else
    match l.dropWhile Char.isDigit with
    | '.' :: r2 =>
      if (r2.takeWhile Char.isDigit).isEmpty then none
      else some (r2.dropWhile Char.isDigit)
    | r => some r

/-- The `yardsPerOz` regex `^\d+(\.\d+)?\/\d+(\.\d+)?$` of `yarnSchema`. -/
def yardsPerOzOk (s : String) : Bool :=
  match numTok s.toList with
  | some ('/' :: r) =>
    match numTok r with
    | some [] => true
    | _ => false
  | _ => false

/-- The field constraints of `yarnSchema` / `formSchema`, returning the names of the
violated fields in schema order (empty list means the payload validates):
`brand`/`productLine`/`materials` nonempty, `weight` an integer in `[1,7]`,
`yardsPerOz` matching the pattern, `totalWeight`/`totalYards` positive, every
`organization` quantity a positive integer. -/
def yarnSchemaErrors (p : YarnPayload) : List String :=
  (if p.brand.length < 1 then ["brand"] else []) ++
  (if p.productLine.length < 1 then ["productLine"] else []) ++
  (if p.materials.length < 1 then ["materials"] else []) ++
  (if p.weight < 1 || 7 < p.weight then ["weight"] else []) ++
  (if yardsPerOzOk p.yardsPerOz then [] else ["yardsPerOz"]) ++
  (if 0 < p.totalWeight then [] else ["totalWeight"]) ++
  (if 0 < p.totalYards then [] else ["totalYards"]) ++
  (if p.organization.all (fun o => 0 < o.quantity) then [] else ["organization"])

/-- The body of `POST /api/yarn` as the route actually destructures it
(`src/app/api/yarn/route.ts`, lines 96-97): `const \x7b name, brand, color, weight,
length, tags \x7d = data` — the field names of an earlier schema generation. -/
structure LegacyCreateReq where
  name : Option String := none
  brand : Option String := none
  color : Option String := none
  weight : Option Int := none
  length : Option Rat := none
  tags : Option (List String) := none

/-- Responses of the create pipeline. -/
inductive CreateResult where
  | created
  | badRequestNameRequired
  | serverError
deriving DecidableEq

/-- `POST /api/yarn` (`src/app/api/yarn/route.ts`, lines 88-134).  `if (!name)`
answers 400 `"Name is required"` whenever `name` is absent or empty.  Any request
that passes that check reaches `prisma.yarn.create` with the fields `name`, `color`
and `length`, which do not exist on the current `Yarn` model
(`src/prisma/schema.prisma`, lines 80-103) and whose required columns
(`materials`, `productLine`, `totalWeight`, `totalYards`, `yardsPerOz`) it does not
supply — the client throws a validation error, caught as 500; in both cases nothing
is stored. -/
def serverCreateYarn (db : DB) (uid : String) (r : LegacyCreateReq) :
    CreateResult × DB :=
  if (r.name.getD "").isEmpty then (.badRequestNameRequired, db)
  else (.serverError, db)

/-- The `apiData` object the new-yarn form posts to `/api/yarn`
(`src/unnamed/part_005`, lines 345-360), viewed through the destructuring of the
route: the payload carries `brand`, `weight` and `tags` but no `name`, `color` or
`length` fields. -/
def toLegacyReq (p : YarnPayload) : LegacyCreateReq :=
  { name := none
    brand := some p.brand
    color := none
    weight := some p.weight
    length := none
    tags := p.tags }

/-- Outcome of submitting the new-yarn form. -/
inductive FormCreateOutcome where
  | validationError (fields : List String)
  | serverResponse (r : CreateResult)
deriving DecidableEq

/-- The create pipeline as the new-yarn page drives it
(`src/unnamed/part_005`): `zodResolver(formSchema)` validates the form values, and
`onSubmit` — hence the `fetch("/api/yarn", \x7b method: "POST" ... \x7d)` — only runs
when validation passes; a failing payload never reaches the network or the store. -/
def formCreateYarn (db : DB) (uid : String) (p : YarnPayload) :
    FormCreateOutcome × DB :=
  match yarnSchemaErrors p with
  | [] =>
    let r := serverCreateYarn db uid (toLegacyReq p)
    (.serverResponse r.1, r.2)
  | errs => (.validationError errs, db)

/-- The tag rows that `insertTags` creates for names `ts`, with ids counting up
from `n`. -/
def tagRows (n : Nat) (yid : String) : List String → List TagRow
  | [] => []
  | t :: ts => ⟨n, t, yid⟩ :: tagRows (n + 1) yid ts

/-- Concrete stores and payloads used by the witness and counterexample theorems. -/
def yAlice : YarnRow :=
  ⟨"y1", "alice", "Malabrigo", "Rios", "100% wool", "210/3.5", 4, 4, 210,
    none, none, none, .NOT_TO_BE_DYED⟩

/-- A project owned by user `bob`. -/
def projBob : ProjectRow := ⟨"pB", "bob", "Sweater", none, "planned"⟩

/-- Store with `alice`'s yarn and `bob`'s project. -/
def dbForeign : DB := ⟨[yAlice], [projBob], [], [], [], [], [], 0⟩

/-- A yarn owned by user `u`, satisfying the positivity invariant. -/
def yU : YarnRow :=
  ⟨"y1", "u", "Malabrigo", "Rios", "100% wool", "210/3.5", 4, 4, 210,
    none, none, none, .NOT_TO_BE_DYED⟩

/-- A project owned by user `u`. -/
def projU : ProjectRow := ⟨"p1", "u", "Sweater", none, "planned"⟩

/-- Store for the atomicity counterexample: `u`'s yarn carries one tag `"old"`,
and only project `"p1"` exists. -/
def dbAtom : DB := ⟨[yU], [projU], [⟨0, "old", "y1"⟩], [], [], [], [], 1⟩

/-- A PATCH body replacing the tags and naming one valid and one nonexistent
project id. -/
def bodyAtom : PatchBody := { tags := .arr ["x"], projectIds := some ["p1", "ghost"] }

/-- Store for the invariant counterexample: one yarn with positive totals, one
project, both owned by `u`. -/
def dbInv : DB := ⟨[yU], [projU], [], [], [], [], [], 0⟩

/-- A payload satisfying every `yarnSchema` constraint, with `weight = 7`. -/
def pay7 : YarnPayload :=
  ⟨"Malabrigo", "Rios", none, none, none, .NOT_TO_BE_DYED, "100% wool", 7,
    "210/3.5", 4, 210, [], some []⟩

/-- The empty store. -/
def dbEmpty : DB := ⟨[], [], [], [], [], [], [], 0⟩

/-- Store in which `alice` owns both a yarn and a project; `bob` owns nothing. -/
def dbOwn : DB := ⟨[yAlice], [⟨"pA", "alice", "Scarf", none, "planned"⟩],
  [], [], [], [], [], 0⟩

/-- Store for the cascade witness: `u`'s yarn carries 2 photos and 3 organization
entries and is linked to 2 projects. -/
def dbCasc : DB :=
  ⟨[yU],
    [projU, ⟨"p2", "u", "Hat", none, "planned"⟩],
    [],
    [⟨0, "a.jpg", "y1"⟩, ⟨1, "b.jpg", "y1"⟩],
    [⟨2, "skein", 2, "y1"⟩, ⟨3, "ball", 1, "y1"⟩, ⟨4, "cake", 5, "y1"⟩],
    [],
    [("p1", "y1"), ("p2", "y1")],
    5⟩

theorem filter_of_filter_not (p : α → Bool) (l : List α) :
    (l.filter (fun a => !(p a))).filter p = [] := by
  induction l with
  | nil => rfl
  | cons a l ih =>
    by_cases h : p a = true <;> simp [List.filter_cons, h, ih]

theorem insertTags_eq (yid : String) (ts : List String) :
    ∀ d : DB,
      insertTags d yid ts =
        { d with tags := d.tags ++ tagRows d.nextId yid ts,
                 nextId := d.nextId + ts.length } := by
  induction ts with
  | nil => intro d; simp [insertTags, tagRows]
  | cons t ts ih =>
    intro d
    have step :
        insertTags d yid (t :: ts) =
          insertTags
            { d with tags := d.tags ++ [⟨d.nextId, t, yid⟩], nextId := d.nextId + 1 }
            yid ts := rfl
    rw [step, ih]
    simp only [DB.mk.injEq, true_and, and_true, tagRows, List.length_cons,
      List.append_assoc, List.singleton_append]
    omega

theorem tagRows_filter_self (yid : String) :
    ∀ (n : Nat) (ts : List String),
      (tagRows n yid ts).filter (fun t => t.yarnId == yid) = tagRows n yid ts := by
  intro n ts
  induction ts generalizing n with
  | nil => rfl
  | cons t ts ih => simp [tagRows, List.filter_cons, ih]

theorem tagRows_names (yid : String) :
    ∀ (n : Nat) (ts : List String),
      (tagRows n yid ts).map (fun t => t.name) = ts := by
  intro n ts
  induction ts generalizing n with
  | nil => rfl
  | cons t ts ih => simp [tagRows, ih]

theorem tagNames_filter_append (A : List TagRow) (yid : String) (n : Nat)
    (ts : List String) :
    ((A.filter (fun r => r.yarnId != yid) ++ tagRows n yid ts).filter
        (fun t => t.yarnId == yid)).map (fun t => t.name) = ts := by
  rw [List.filter_append]
  rw [show (A.filter (fun r => r.yarnId != yid)).filter (fun t => t.yarnId == yid)
        = [] from filter_of_filter_not (fun t => t.yarnId == yid) A]
  rw [tagRows_filter_self, List.nil_append, tagRows_names]

theorem tagsStep_arr (db : DB) (yid : String) (ts : List String) :
    tagsStep db yid (.arr ts) =
      .ok { db with
              tags := db.tags.filter (fun r => r.yarnId != yid) ++
                        tagRows db.nextId yid ts,
              nextId := db.nextId + ts.length } := by
  cases ts with
  | nil => simp [tagsStep, tagRows]
  | cons t ts =>
    rw [show tagsStep db yid (.arr (t :: ts)) =
          Except.ok
            (insertTags { db with tags := db.tags.filter (fun r => r.yarnId != yid) }
              yid (t :: ts)) from rfl]
    rw [insertTags_eq]

theorem updScalar_arr (ts : List String) (y : YarnRow) :
    updScalar { tags := .arr ts } y = y := rfl

theorem updScalar_nullv (y : YarnRow) :
    updScalar { tags := .nullv } y = y := rfl

theorem map_patch_id (yid : String) (f : YarnRow → YarnRow) (hf : ∀ y, f y = y) :
    ∀ l : List YarnRow, (l.map (fun y => if y.id = yid then f y else y)) = l := by
  intro l
  induction l with
  | nil => rfl
  | cons a l ih => simp [hf, ih]

theorem applyScalar_id (db : DB) (yid : String) (b : PatchBody)
    (hb : ∀ y, updScalar b y = y) : applyScalar db yid b = db := by
  unfold applyScalar
  rw [map_patch_id yid (updScalar b) hb db.yarns]

theorem patchYarn_eq_of_found (db : DB) (uid yid : String) (y : YarnRow)
    (b : PatchBody) (hy : findYarn db uid yid = some y) :
    patchYarn db uid yid b =
      (match orgStep (applyScalar db yid b) yid b.organization with
       | .error d => (.serverError, d)
       | .ok db2 =>
         match tagsStep db2 yid b.tags with
         | .error d => (.serverError, d)
         | .ok db3 =>
           match projStep db3 yid b.projectIds with
           | .error d => (.serverError, d)
           | .ok db4 => (.ok, db4)) := by
  unfold patchYarn
  rw [hy]

theorem patchYarn_tagsOnly (db : DB) (uid yid : String) (y : YarnRow)
    (ts : List String) (hy : findYarn db uid yid = some y) :
    patchYarn db uid yid { tags := .arr ts } =
      (.ok,
        { db with
          tags := db.tags.filter (fun r => r.yarnId != yid) ++ tagRows db.nextId yid ts,
          nextId := db.nextId + ts.length }) := by
  rw [patchYarn_eq_of_found db uid yid y _ hy]
  rw [applyScalar_id db yid _ (updScalar_arr ts)]
  simp only [orgStep, projStep, tagsStep_arr]

/-- C5 — Tag replacement deletes all of the yarn's tag rows, then inserts one row
per supplied name (duplicates preserved, insertion order kept), so the yarn's
stored tag-name list after the update is exactly the supplied list; running the
same update twice therefore leaves the same stored tag multiset as running it
once. -/
theorem tags_replacement_idempotent (db : DB) (uid yid : String) (y : YarnRow)
    (ts : List String) (hy : findYarn db uid yid = some y) :
    (patchYarn db uid yid { tags := .arr ts }).1 = .ok ∧
    tagNames (patchYarn db uid yid { tags := .arr ts }).2 yid = ts ∧
    (patchYarn (patchYarn db uid yid { tags := .arr ts }).2 uid yid
        { tags := .arr ts }).1 = .ok ∧
    tagNames (patchYarn (patchYarn db uid yid { tags := .arr ts }).2 uid yid
        { tags := .arr ts }).2 yid = ts := by
  have h1 := patchYarn_tagsOnly db uid yid y ts hy
  have hy2 : findYarn (patchYarn db uid yid { tags := .arr ts }).2 uid yid
      = some y := by
    rw [h1]; exact hy
  have h2 := patchYarn_tagsOnly _ uid yid y ts hy2
  refine ⟨by rw [h1], ?_, by rw [h2], ?_⟩
  · rw [h1]
    exact tagNames_filter_append db.tags yid db.nextId ts
  · rw [h2]
    exact tagNames_filter_append _ yid _ ts

theorem tags_replacement_idempotent_witness :
    findYarn dbAtom "u" "y1" = some yU ∧
    ((patchYarn dbAtom "u" "y1" { tags := .arr ["x", "y"] }).1 = .ok ∧
      tagNames (patchYarn dbAtom "u" "y1" { tags := .arr ["x", "y"] }).2 "y1"
        = ["x", "y"] ∧
      (patchYarn (patchYarn dbAtom "u" "y1" { tags := .arr ["x", "y"] }).2 "u" "y1"
          { tags := .arr ["x", "y"] }).1 = .ok ∧
      tagNames
        (patchYarn (patchYarn dbAtom "u" "y1" { tags := .arr ["x", "y"] }).2 "u" "y1"
          { tags := .arr ["x", "y"] }).2 "y1" = ["x", "y"]) :=
  ⟨by decide, tags_replacement_idempotent dbAtom "u" "y1" yU ["x", "y"] (by decide)⟩

/-- C10 — A PATCH body whose `tags` field is JSON `null` passes the
`tags !== undefined` guard, so the handler deletes all of the yarn's tag rows, and
then `tags.length` throws: the call answers 500 while the deletion stays
committed. -/
theorem patch_null_tags_deletes_then_500 (db : DB) (uid yid : String) (y : YarnRow)
    (hy : findYarn db uid yid = some y) :
    patchYarn db uid yid { tags := .nullv } =
      (.serverError, { db with tags := db.tags.filter (fun r => r.yarnId != yid) }) := by
  rw [patchYarn_eq_of_found db uid yid y _ hy]
  rw [applyScalar_id db yid _ updScalar_nullv]
  simp only [orgStep, tagsStep]

theorem patch_null_tags_deletes_then_500_witness :
    findYarn dbAtom "u" "y1" = some yU ∧
    patchYarn dbAtom "u" "y1" { tags := .nullv } =
      (.serverError,
        { dbAtom with tags := dbAtom.tags.filter (fun r => r.yarnId != "y1") }) :=
  ⟨by decide, patch_null_tags_deletes_then_500 dbAtom "u" "y1" yU (by decide)⟩

theorem projStep_fails (d : DB) (yid : String) (pids : List String)
    (h : pids.all (projectExists d) = false) :
    projStep d yid (some pids) = .error d := by
  simp [projStep, h]

theorem patch_seq_projFail (d : DB) (yid : String) (ts pids : List String)
    (hbad : pids.all (projectExists d) = false) :
    (match tagsStep d yid (.arr ts) with
     | .error x => (PatchResult.serverError, x)
     | .ok db3 =>
       match projStep db3 yid (some pids) with
       | .error x => (PatchResult.serverError, x)
       | .ok db4 => (PatchResult.ok, db4)) =
      (.serverError,
        { d with
          tags := d.tags.filter (fun r => r.yarnId != yid) ++ tagRows d.nextId yid ts,
          nextId := d.nextId + ts.length }) := by
  have hD : pids.all
      (projectExists
        { d with
          tags := d.tags.filter (fun r => r.yarnId != yid) ++ tagRows d.nextId yid ts,
          nextId := d.nextId + ts.length }) = false := hbad
  rw [tagsStep_arr]
  show (match
      projStep
        { d with
          tags := d.tags.filter (fun r => r.yarnId != yid) ++ tagRows d.nextId yid ts,
          nextId := d.nextId + ts.length }
        yid (some pids) with
    | Except.error x => (PatchResult.serverError, x)
    | Except.ok db4 => (PatchResult.ok, db4)) = _
  rw [projStep_fails _ yid pids hD]

/-- C1 (counterexample) — The combined update is not atomic: on the store
`dbAtom` (one yarn tagged `"old"`, one project `"p1"`), the body replacing tags
with `["x"]` and the project list with `["p1", "ghost"]` fails (500) because
`"ghost"` names no project, yet after the call the yarn's stored tag list is
`["x"]`, not the pre-call `["old"]` — the tag replacement was not rolled back. -/
theorem patch_not_atomic_counterexample :
    (patchYarn dbAtom "u" "y1" bodyAtom).1 = .serverError ∧
    tagNames dbAtom "y1" = ["old"] ∧
    tagNames (patchYarn dbAtom "u" "y1" bodyAtom).2 "y1" = ["x"] ∧
    (patchYarn dbAtom "u" "y1" bodyAtom).2.links = dbAtom.links := by
  decide

/-- C1 (amended) — What does hold: when a PATCH supplies both a tag replacement
and a project-id list containing an unknown id, the call reports 500; the
projectIds step itself is atomic, so the stored project links are exactly as
before the call, but the tag replacement of the same request stays applied: the
yarn's stored tag names equal the supplied list, not the pre-call ones. -/
theorem patch_keeps_earlier_steps_on_project_failure (db : DB) (uid yid : String)
    (b : PatchBody) (y : YarnRow) (ts pids : List String)
    (hy : findYarn db uid yid = some y)
    (ho : b.organization = none)
    (ht : b.tags = .arr ts)
    (hp : b.projectIds = some pids)
    (hbad : pids.all (projectExists db) = false) :
    (patchYarn db uid yid b).1 = .serverError ∧
    (patchYarn db uid yid b).2.links = db.links ∧
    tagNames (patchYarn db uid yid b).2 yid = ts := by
  have hchar : patchYarn db uid yid b =
      (.serverError,
        { applyScalar db yid b with
          tags := (applyScalar db yid b).tags.filter (fun r => r.yarnId != yid) ++
                    tagRows (applyScalar db yid b).nextId yid ts,
          nextId := (applyScalar db yid b).nextId + ts.length }) := by
    rw [patchYarn_eq_of_found db uid yid y b hy, ho, ht, hp]
    simp only [orgStep]
    exact patch_seq_projFail (applyScalar db yid b) yid ts pids
      (show pids.all (projectExists (applyScalar db yid b)) = false from hbad)
  rw [hchar]
  exact ⟨rfl, rfl, tagNames_filter_append _ yid _ ts⟩

theorem patch_keeps_earlier_steps_on_project_failure_witness :
    findYarn dbAtom "u" "y1" = some yU ∧
    bodyAtom.organization = none ∧
    bodyAtom.tags = .arr ["x"] ∧
    bodyAtom.projectIds = some ["p1", "ghost"] ∧
    (["p1", "ghost"].all (projectExists dbAtom)) = false ∧
    ((patchYarn dbAtom "u" "y1" bodyAtom).1 = .serverError ∧
      (patchYarn dbAtom "u" "y1" bodyAtom).2.links = dbAtom.links ∧
      tagNames (patchYarn dbAtom "u" "y1" bodyAtom).2 "y1" = ["x"]) :=
  ⟨by decide, rfl, rfl, rfl, by decide,
    patch_keeps_earlier_steps_on_project_failure dbAtom "u" "y1" bodyAtom yU ["x"]
      ["p1", "ghost"] (by decide) rfl rfl rfl (by decide)⟩

/-- C2 — The `projectIds` connect has no ownership filter: on `dbForeign`, user
`alice` PATCHes her yarn with `projectIds: ["pB"]` where project `"pB"` belongs to
`bob`; the call succeeds and the store now links her yarn to the foreign-owned
project, instead of failing with `NotFound` and leaving the associations
unchanged.  A `projectIds` entry that exists for no user at all makes the call
answer 500 (the generic catch), not 404. -/
theorem patch_links_foreign_project :
    (patchYarn dbForeign "alice" "y1" { projectIds := some ["pB"] }).1 = .ok ∧
    (patchYarn dbForeign "alice" "y1" { projectIds := some ["pB"] }).2.links
      = [("pB", "y1")] ∧
    dbForeign.projects.map (fun p => (p.id, p.userId)) = [("pB", "bob")] ∧
    (patchYarn dbForeign "alice" "y1" { projectIds := some ["nope"] }).1
      = .serverError := by
  decide

/-- C6 (counterexample) — The positivity invariant on `totalWeight`/`totalYards`
is not preserved by every operation: `dbInv` satisfies it, yet
`PATCH /api/yarns/[id]` passes its scalar body to `prisma.yarn.update`
unvalidated, so the body `\x7b totalWeight: 0, totalYards: 0 \x7d` succeeds (200)
and the store now holds the yarn with both totals zero, breaking the
invariant. -/
theorem patch_zero_totals_counterexample :
    dbInvariant dbInv ∧
    (patchYarn dbInv "u" "y1" { totalWeight := some 0, totalYards := some 0 }).1
      = .ok ∧
    (patchYarn dbInv "u" "y1"
        { totalWeight := some 0, totalYards := some 0 }).2.yarns.map
        (fun y => (y.id, y.totalWeight, y.totalYards)) = [("y1", 0, 0)] ∧
    ¬ dbInvariant
        (patchYarn dbInv "u" "y1" { totalWeight := some 0, totalYards := some 0 }).2 := by
  decide

/-- C6 (amended) — What does hold of the cited code: the add-yarn-to-project
endpoint can never reach its totals-zeroing update — its id extraction always
yields `undefined`, so every request is answered 400 with the store untouched —
and the create-side schema gate rejects a non-positive `totalWeight`; but the
invariant is not preserved by every operation, because the PATCH handler applies
scalar fields without validation: an update supplying `totalWeight: 0` and
`totalYards: 0` succeeds and stores the zeros on the targeted yarn. -/
theorem invariant_not_preserved_by_unvalidated_patch (db : DB) (uid yid : String)
    (y : YarnRow) (p : YarnPayload)
    (hy : findYarn db uid yid = some y)
    (hp : p.totalWeight = 0) :
    addYarnToProject db uid yid = (.badRequest, db) ∧
    "totalWeight" ∈ yarnSchemaErrors p ∧
    patchYarn db uid yid { totalWeight := some 0, totalYards := some 0 } =
      (.ok,
        { db with
          yarns := db.yarns.map (fun y' =>
            if y'.id = yid then { y' with totalWeight := 0, totalYards := 0 }
            else y') }) := by
  refine ⟨rfl, ?_, ?_⟩
  · simp [yarnSchemaErrors, hp]
  · rw [patchYarn_eq_of_found db uid yid y _ hy]
    rfl

theorem invariant_not_preserved_by_unvalidated_patch_witness :
    findYarn dbInv "u" "y1" = some yU ∧
    ({ pay7 with totalWeight := 0 } : YarnPayload).totalWeight = 0 ∧
    (addYarnToProject dbInv "u" "y1" = (.badRequest, dbInv) ∧
      "totalWeight" ∈ yarnSchemaErrors { pay7 with totalWeight := 0 } ∧
      patchYarn dbInv "u" "y1" { totalWeight := some 0, totalYards := some 0 } =
        (.ok,
          { dbInv with
            yarns := dbInv.yarns.map (fun y' =>
              if y'.id = "y1" then { y' with totalWeight := 0, totalYards := 0 }
              else y') })) :=
  ⟨by decide, rfl,
    invariant_not_preserved_by_unvalidated_patch dbInv "u" "y1" yU
      { pay7 with totalWeight := 0 } (by decide) rfl⟩

/-- C8 — The schema gate does reject `weight = 8` (field `"weight"`, nothing
stored) and passes the identical payload with `weight = 7`; but the payload that
passes validation is then posted to `POST /api/yarn`, which destructures the
legacy fields (`name`, `color`, `length`), finds `name` missing, and answers 400
`"Name is required"` — so even a fully valid `weight = 7` payload is never
persisted by the live route. -/
theorem weight_validation_gate_and_stale_create_route :
    yarnSchemaErrors { pay7 with weight := 8 } = ["weight"] ∧
    formCreateYarn dbEmpty "u" { pay7 with weight := 8 }
      = (.validationError ["weight"], dbEmpty) ∧
    yarnSchemaErrors pay7 = [] ∧
    formCreateYarn dbEmpty "u" pay7
      = (.serverResponse .badRequestNameRequired, dbEmpty) := by
  decide

theorem findYarn_none_of_foreign (db : DB) (A B yid : String) (hAB : A ≠ B)
    (hown : ∀ y ∈ db.yarns, y.id = yid → y.userId = A) :
    findYarn db B yid = none := by
  unfold findYarn
  rw [List.find?_eq_none]
  intro y hyy
  simp only [Bool.and_eq_true, beq_iff_eq, not_and]
  intro h1 h2
  exact hAB ((hown y hyy h1) ▸ h2)

theorem findYarn_none_of_absent (db : DB) (B yid : String)
    (habs : ∀ y ∈ db.yarns, y.id ≠ yid) :
    findYarn db B yid = none := by
  unfold findYarn
  rw [List.find?_eq_none]
  intro y hyy
  simp only [Bool.and_eq_true, beq_iff_eq, not_and]
  intro h1
  exact absurd h1 (habs y hyy)

theorem findProject_none_of_foreign (db : DB) (A B pid : String) (hAB : A ≠ B)
    (hown : ∀ p ∈ db.projects, p.id = pid → p.userId = A) :
    findProject db B pid = none := by
  unfold findProject
  rw [List.find?_eq_none]
  intro p hp
  simp only [Bool.and_eq_true, beq_iff_eq, not_and]
  intro h1 h2
  exact hAB ((hown p hp h1) ▸ h2)

theorem findProject_none_of_absent (db : DB) (B pid : String)
    (habs : ∀ p ∈ db.projects, p.id ≠ pid) :
    findProject db B pid = none := by
  unfold findProject
  rw [List.find?_eq_none]
  intro p hp
  simp only [Bool.and_eq_true, beq_iff_eq, not_and]
  intro h1
  exact absurd h1 (habs p hp)

/-- C4 — Ownership isolation: when every yarn row with id `yid` and every project
row with id `pid` belongs to user `A` (rows exist) and `B` is a different user,
then GET, PATCH and DELETE called as `B` on those ids answer `NotFound` without
touching the store; and the very same responses are produced for ids (`gyid`,
`gpid`) that exist for no user at all — the two cases are indistinguishable to the
caller. -/
theorem ownership_isolation (db : DB) (A B yid pid gyid gpid : String)
    (bY : PatchBody) (bP : ProjectPatchBody) (hAB : A ≠ B)
    (hyEx : ∃ y ∈ db.yarns, y.id = yid)
    (hyOwn : ∀ y ∈ db.yarns, y.id = yid → y.userId = A)
    (hpEx : ∃ p ∈ db.projects, p.id = pid)
    (hpOwn : ∀ p ∈ db.projects, p.id = pid → p.userId = A)
    (hgy : ∀ y ∈ db.yarns, y.id ≠ gyid)
    (hgp : ∀ p ∈ db.projects, p.id ≠ gpid) :
    getYarn db B yid = none ∧
    patchYarn db B yid bY = (.notFound, db) ∧
    deleteYarn db B yid = (.notFound, db) ∧
    getProject db B pid = none ∧
    patchProject db B pid bP = (.notFound, db) ∧
    deleteProject db B pid = (.notFound, db) ∧
    getYarn db B gyid = none ∧
    patchYarn db B gyid bY = (.notFound, db) ∧
    deleteYarn db B gyid = (.notFound, db) ∧
    getProject db B gpid = none ∧
    patchProject db B gpid bP = (.notFound, db) ∧
    deleteProject db B gpid = (.notFound, db) := by
  have hy := findYarn_none_of_foreign db A B yid hAB hyOwn
  have hp := findProject_none_of_foreign db A B pid hAB hpOwn
  have hgy' := findYarn_none_of_absent db B gyid hgy
  have hgp' := findProject_none_of_absent db B gpid hgp
  refine ⟨?_, ?_, ?_, ?_, ?_, ?_, ?_, ?_, ?_, ?_, ?_, ?_⟩
  · simp [getYarn, hy]
  · simp [patchYarn, hy]
  · simp [deleteYarn, hy]
  · simp [getProject, hp]
  · simp [patchProject, hp]
  · simp [deleteProject, hp]
  · simp [getYarn, hgy']
  · simp [patchYarn, hgy']
  · simp [deleteYarn, hgy']
  · simp [getProject, hgp']
  · simp [patchProject, hgp']
  · simp [deleteProject, hgp']

theorem ownership_isolation_witness :
    ("alice" : String) ≠ "bob" ∧
    (∃ y ∈ dbOwn.yarns, y.id = "y1") ∧
    (∀ y ∈ dbOwn.yarns, y.id = "y1" → y.userId = "alice") ∧
    (∃ p ∈ dbOwn.projects, p.id = "pA") ∧
    (∀ p ∈ dbOwn.projects, p.id = "pA" → p.userId = "alice") ∧
    (∀ y ∈ dbOwn.yarns, y.id ≠ "ghostY") ∧
    (∀ p ∈ dbOwn.projects, p.id ≠ "ghostP") ∧
    (getYarn dbOwn "bob" "y1" = none ∧
      patchYarn dbOwn "bob" "y1" {} = (.notFound, dbOwn) ∧
      deleteYarn dbOwn "bob" "y1" = (.notFound, dbOwn) ∧
      getProject dbOwn "bob" "pA" = none ∧
      patchProject dbOwn "bob" "pA" {} = (.notFound, dbOwn) ∧
      deleteProject dbOwn "bob" "pA" = (.notFound, dbOwn) ∧
      getYarn dbOwn "bob" "ghostY" = none ∧
      patchYarn dbOwn "bob" "ghostY" {} = (.notFound, dbOwn) ∧
      deleteYarn dbOwn "bob" "ghostY" = (.notFound, dbOwn) ∧
      getProject dbOwn "bob" "ghostP" = none ∧
      patchProject dbOwn "bob" "ghostP" {} = (.notFound, dbOwn) ∧
      deleteProject dbOwn "bob" "ghostP" = (.notFound, dbOwn)) :=
  ⟨by decide, by decide, by decide, by decide, by decide, by decide, by decide,
    ownership_isolation dbOwn "alice" "bob" "y1" "pA" "ghostY" "ghostP" {} {}
      (by decide) (by decide) (by decide) (by decide) (by decide) (by decide)
      (by decide)⟩

/-- C7 — Deleting an owned yarn removes every dependent `YarnPhoto`, `YarnTag`
and `YarnOrganization` row and every `_ProjectToYarn` join row of that yarn
(none remain afterwards), while the `projects` table itself is untouched: every
project that existed before the delete still exists after it. -/
theorem delete_cascades_dependents_spares_projects (db : DB) (uid yid : String)
    (y : YarnRow) (hy : findYarn db uid yid = some y) :
    (deleteYarn db uid yid).1 = .ok ∧
    (deleteYarn db uid yid).2.projects = db.projects ∧
    (deleteYarn db uid yid).2.photos = db.photos.filter (fun p => p.yarnId != yid) ∧
    (deleteYarn db uid yid).2.tags = db.tags.filter (fun t => t.yarnId != yid) ∧
    (deleteYarn db uid yid).2.orgs = db.orgs.filter (fun o => o.yarnId != yid) ∧
    (deleteYarn db uid yid).2.links = db.links.filter (fun l => l.2 != yid) ∧
    (deleteYarn db uid yid).2.photos.filter (fun p => p.yarnId == yid) = [] ∧
    (deleteYarn db uid yid).2.tags.filter (fun t => t.yarnId == yid) = [] ∧
    (deleteYarn db uid yid).2.orgs.filter (fun o => o.yarnId == yid) = [] ∧
    (deleteYarn db uid yid).2.links.filter (fun l => l.2 == yid) = [] := by
  have hdel : deleteYarn db uid yid =
      (.ok,
        { db with
          yarns := db.yarns.filter (fun y => y.id != yid)
          photos := db.photos.filter (fun p => p.yarnId != yid)
          tags := db.tags.filter (fun t => t.yarnId != yid)
          orgs := db.orgs.filter (fun o => o.yarnId != yid)
          links := db.links.filter (fun l => l.2 != yid) }) := by
    unfold deleteYarn
    rw [hy]
  rw [hdel]
  refine ⟨rfl, rfl, rfl, rfl, rfl, rfl, ?_, ?_, ?_, ?_⟩
  · exact filter_of_filter_not (fun p => p.yarnId == yid) db.photos
  · exact filter_of_filter_not (fun t => t.yarnId == yid) db.tags
  · exact filter_of_filter_not (fun o => o.yarnId == yid) db.orgs
  · exact filter_of_filter_not (fun l => l.2 == yid) db.links

theorem delete_cascades_dependents_spares_projects_witness :
    findYarn dbCasc "u" "y1" = some yU ∧
    dbCasc.photos.length = 2 ∧
    dbCasc.orgs.length = 3 ∧
    dbCasc.links.length = 2 ∧
    ((deleteYarn dbCasc "u" "y1").1 = .ok ∧
      (deleteYarn dbCasc "u" "y1").2.projects = dbCasc.projects ∧
      (deleteYarn dbCasc "u" "y1").2.photos
        = dbCasc.photos.filter (fun p => p.yarnId != "y1") ∧
      (deleteYarn dbCasc "u" "y1").2.tags
        = dbCasc.tags.filter (fun t => t.yarnId != "y1") ∧
      (deleteYarn dbCasc "u" "y1").2.orgs
        = dbCasc.orgs.filter (fun o => o.yarnId != "y1") ∧
      (deleteYarn dbCasc "u" "y1").2.links
        = dbCasc.links.filter (fun l => l.2 != "y1") ∧
      (deleteYarn dbCasc "u" "y1").2.photos.filter (fun p => p.yarnId == "y1") = [] ∧
      (deleteYarn dbCasc "u" "y1").2.tags.filter (fun t => t.yarnId == "y1") = [] ∧
      (deleteYarn dbCasc "u" "y1").2.orgs.filter (fun o => o.yarnId == "y1") = [] ∧
      (deleteYarn dbCasc "u" "y1").2.links.filter (fun l => l.2 == "y1") = []) :=
  ⟨by decide, by decide, by decide, by decide,
    delete_cascades_dependents_spares_projects dbCasc "u" "y1" yU (by decide)⟩

theorem isPrefixOf_append_self (p r : List Char) : p.isPrefixOf (p ++ r) = true := by
  induction p with
  | nil => simp [List.isPrefixOf]
  | cons c p ih => simp [List.isPrefixOf, ih]

theorem splitArrow_cons_noMatch (c : Char) (cs : List Char)
    (h0 : ¬ arrow.isPrefixOf (c :: cs) = true) :
    splitArrow (c :: cs) =
      (match splitArrow cs with
        | [] => [[c]]
        | h :: t => (c :: h) :: t) := by
  rw [splitArrow.eq_def]
  split
  · next x heq => exact absurd heq (by simp)
  · next x rest heq =>
    exfalso
    apply h0
    rw [heq]
    simp [arrow, List.isPrefixOf]
  · next x c2 cs2 hne heq =>
    obtain ⟨rfl, rfl⟩ : c = c2 ∧ cs = cs2 := by
      injection heq with h1 h2
      exact ⟨h1, h2⟩
    rfl

theorem splitArrow_append (r : List Char) :
    ∀ a : List Char, noArrowBefore (a ++ arrow ++ r) a.length →
      splitArrow (a ++ arrow ++ r) = a :: splitArrow r := by
  intro a
  induction a with
  | nil =>
    intro _
    rfl
  | cons c a' ih =>
    intro h
    have hcons : (c :: a') ++ arrow ++ r = c :: (a' ++ arrow ++ r) := by simp
    have h0 : ¬ arrow.isPrefixOf (c :: (a' ++ arrow ++ r)) = true := by
      have := h 0 (by simp)
      rw [List.drop_zero, hcons] at this
      exact this
    have ih' : splitArrow (a' ++ arrow ++ r) = a' :: splitArrow r := by
      apply ih
      intro i hi
      have := h (i + 1) (by simpa using Nat.succ_lt_succ hi)
      rw [hcons] at this
      simpa using this
    rw [hcons, splitArrow_cons_noMatch c _ h0, ih']

theorem splitArrow_single :
    ∀ b : List Char, (∀ i, ¬ arrow.isPrefixOf (b.drop i) = true) →
      splitArrow b = [b] := by
  intro b
  induction b with
  | nil => intro _; rfl
  | cons c cs ih =>
    intro h
    have h0 : ¬ arrow.isPrefixOf (c :: cs) = true := by
      have := h 0
      rwa [List.drop_zero] at this
    have ih' : splitArrow cs = [cs] := by
      apply ih
      intro i
      have := h (i + 1)
      simpa using this
    rw [splitArrow_cons_noMatch c cs h0, ih']

theorem includesArrow_of_append (a r : List Char) :
    includesArrow (a ++ arrow ++ r) = true := by
  unfold includesArrow
  rw [List.any_eq_true]
  refine ⟨a.length, ?_, ?_⟩
  · rw [List.mem_range]
    simp [List.length_append, arrow]
  · have hdrop : (a ++ arrow ++ r).drop a.length = arrow ++ r := by
      rw [List.append_assoc, List.drop_left]
    rw [hdrop]
    exact isPrefixOf_append_self arrow r

/-- C3 (amended) — What the code does on a delimiter-containing input: it splits on
EVERY occurrence of `"-->"` (not on the first occurrence only): writing the input as
`a ++ "-->" ++ b ++ c` where no occurrence starts inside `a`, none starts inside
`b`, and `c` is empty or starts with another delimiter, `currColor` becomes the
trimmed `a`, `nextColor` becomes the trimmed `b` — i.e. only the text up to the
SECOND delimiter; anything after it is discarded — and `dyeStatus` is forced to
`TO_BE_DYED` regardless of the selector's value in `s`. -/
theorem handleColorChange_splits_every_occurrence (a b c : List Char)
    (s : FormState)
    (ha : noArrowBefore (a ++ arrow ++ (b ++ c)) a.length)
    (hb : noArrowBefore (b ++ c) b.length)
    (hc : c = [] ∨ ∃ c2, c = arrow ++ c2) :
    handleColorChange (String.mk (a ++ arrow ++ (b ++ c))) s =
      { s with
        currColor := some (jsTrim (String.mk a))
        nextColor := some (jsTrim (String.mk b))
        dyeStatus := .TO_BE_DYED } := by
  have hsplit : splitArrow (a ++ arrow ++ (b ++ c)) = a :: splitArrow (b ++ c) :=
    splitArrow_append (b ++ c) a ha
  have hparts : ∃ rest, splitArrow (b ++ c) = b :: rest := by
    rcases hc with rfl | ⟨c2, rfl⟩
    · refine ⟨[], ?_⟩
      rw [List.append_nil]
      apply splitArrow_single
      intro i
      by_cases hi : i < b.length
      · have := hb i hi
        rwa [List.append_nil] at this
      · intro hpre
        rw [List.drop_eq_nil_of_le (by omega)] at hpre
        simp [arrow, List.isPrefixOf] at hpre
    · refine ⟨splitArrow c2, ?_⟩
      have hb' : noArrowBefore (b ++ arrow ++ c2) b.length := by
        intro i hi
        have := hb i hi
        rwa [← List.append_assoc] at this
      have := splitArrow_append c2 b hb'
      rwa [List.append_assoc] at this
  obtain ⟨rest, hrest⟩ := hparts
  unfold handleColorChange
  rw [show (String.mk (a ++ arrow ++ (b ++ c))).toList = a ++ arrow ++ (b ++ c)
      from rfl]
  rw [includesArrow_of_append]
  rw [hsplit, hrest]
  simp

/-- C3 (counterexample) — On `"a-->b-->c"` the claim's first-occurrence reading
demands `nextColor = "b-->c"` (the whole trimmed right part of the first split),
but the code sets `nextColor = "b"`: it split on every occurrence and kept only
parts 0 and 1. -/
theorem handleColorChange_not_first_split :
    (handleColorChange "a-->b-->c" ⟨none, none, .HAS_BEEN_DYED⟩).nextColor
      = some "b" ∧
    jsTrim (specFirstSplit "a-->b-->c").2 = "b-->c" ∧
    some ("b" : String) ≠ some "b-->c" := by
  decide

theorem handleColorChange_splits_every_occurrence_witness :
    noArrowBefore ("StoneGray ".toList ++ arrow ++ (" Light Blue".toList ++ []))
      "StoneGray ".toList.length ∧
    noArrowBefore (" Light Blue".toList ++ []) " Light Blue".toList.length ∧
    handleColorChange
        (String.mk ("StoneGray ".toList ++ arrow ++ (" Light Blue".toList ++ [])))
        ⟨none, none, .HAS_BEEN_DYED⟩ =
      ⟨some "StoneGray", some "Light Blue", .TO_BE_DYED⟩ :=
  ⟨by decide, by decide,
    by
      have h := handleColorChange_splits_every_occurrence "StoneGray ".toList
        " Light Blue".toList [] ⟨none, none, .HAS_BEEN_DYED⟩ (by decide) (by decide)
        (Or.inl rfl)
      exact h.trans (by decide)⟩

/-- C9 — When the typed value does not contain the delimiter, `handleColorChange`
sets `currColor` to the value verbatim and leaves `nextColor` and `dyeStatus`
exactly as they were. -/
theorem handleColorChange_no_delimiter_frame (v : String) (s : FormState)
    (h : includesArrow v.toList = false) :
    handleColorChange v s = { s with currColor := some v } := by
  unfold handleColorChange
  rw [h]
  simp

theorem handleColorChange_no_delimiter_frame_witness :
    includesArrow "Blue".toList = false ∧
    handleColorChange "Blue" ⟨some "Old", some "Next", .HAS_BEEN_DYED⟩ =
      ⟨some "Blue", some "Next", .HAS_BEEN_DYED⟩ :=
  ⟨by decide,
    handleColorChange_no_delimiter_frame "Blue"
      ⟨some "Old", some "Next", .HAS_BEEN_DYED⟩ (by decide)⟩
